import Mathlib

/-!
Verification of the rustfmt bridge plugin (`src/lib.rs`) against its
natural-language specification.

The development shallowly embeds the plugin's `run_rustfmt` pipeline:

* document text is a list of bytes (`List Nat`, each < 256 in practice);
  the mutable rope and the immutable slice of `RopeOrSlice` are both
  carried as byte lists, with the rope's `line_to_byte` modelled
  explicitly;
* the line-range selection over `RunKind` (`compute_line_ranges`),
  the `--file-lines` scoping serialization (`scoping_instruction`),
  the newline scan (`get_newline_offsets`) and the per-mismatch range
  localization (`slice_range` / `rope_range`) are translated directly
  from the source;
* the subprocess environment (spawn / write / wait results, JSON
  decoding of stdout) is abstracted into an `Env` record supplied per
  invocation, since those effects live outside the program text; UTF-8
  validity of captured output bytes (Rust's `String::from_utf8` /
  `str::from_utf8` success condition) is implemented concretely;
* `run_rustfmt` returns a `RunOutcome`: either `fatal` (a Rust
  panic via `unwrap` / `expect` / `assert!`) or `ok warnings violations`
  (the invocation returns, having printed `warnings` on stderr and
  reported `violations`).
-/

namespace RustfmtPlugin

/-- A row/column position, as in `tree_sitter::Point`. -/
structure Point where
  row : Nat
  column : Nat
  deriving Repr, DecidableEq

/-- A byte range plus its point span, as in `tree_sitter::Range`. -/
structure Range where
  start_byte : Nat
  end_byte : Nat
  start_point : Point
  end_point : Point
  deriving Repr, DecidableEq

/-- One formatter-reported mismatch, as deserialized from rustfmt's JSON
output (struct `Mismatch` in the source).  The `original` and `expected`
texts are carried as byte lists; Rust's `String::is_empty` and
`ends_with('\n')` become emptiness and last-byte tests. -/
structure Mismatch where
  original_begin_line : Nat
  original_end_line : Nat
  expected_begin_line : Nat
  expected_end_line : Nat
  original : List Nat
  expected : List Nat
  deriving Repr, DecidableEq

/-- One file record of rustfmt's JSON output (struct `FileWithMismatches`). -/
structure FileWithMismatches where
  name : String
  mismatches : List Mismatch
  deriving Repr, DecidableEq

/-- One entry of the `--file-lines` argument (struct `FileLineRange`). -/
structure FileLineRange where
  file : String
  range : Nat × Nat
  deriving Repr, DecidableEq

/-- `FileLineRange::new`, converting a half-open `ops::Range` (carried as a
pair `(start, end)`) into the serialized form. -/
def FileLineRange.new (file : String) (range : Nat × Nat) : FileLineRange :=
  { file := file, range := (range.1, range.2) }

/-- A violation from a previous pass; only its `range` is consulted. -/
structure Violation where
  range : Range
  deriving Repr, DecidableEq

/-- A `tree_sitter::InputEdit`; the source only reads `start_position`
and `new_end_position`. -/
structure InputEdit where
  start_byte : Nat
  old_end_byte : Nat
  new_end_byte : Nat
  start_position : Point
  old_end_position : Point
  new_end_position : Point
  deriving Repr, DecidableEq

/-- The accumulated edits since the last fixing run
(`edits_since_last_fixing_run`), abstracting the host engine's type:
`new_ranges` models `get_new_ranges()` and `new_line_range` models
`get_new_line_range(start_byte..end_byte)`, which returns a half-open
0-based line range. -/
structure EditDelta where
  new_ranges : List Range
  new_line_range : Nat → Nat → Nat × Nat

/-- Payload of `RunKind::FixingForSliceInitial`'s `context`. -/
structure FixingContext where
  edits_since_last_fixing_run : Option EditDelta
  last_fixing_run_violations : Option (List Violation)

/-- The host's run-stage descriptor (`tree_sitter_lint::RunKind`), with
exactly the payloads the source consults. -/
inductive RunKind where
  | NonfixingForSlice
  | FixingForSliceInitial (context : FixingContext)
  | FixingForSliceFixingLoop (all_violations_from_last_pass : List Violation)
      (all_fixes_from_last_pass : List (InputEdit × Unit))
  | Unscoped

/-- The `matches!(run_kind, RunKind::NonfixingForSlice)` test guarding the
early return. -/
def RunKind.isNonfixingForSlice : RunKind → Bool
  | .NonfixingForSlice => true
  | _ => false

/-- The `line_ranges` computation of `run_rustfmt` (the match on
`context.file_run_context.run_kind`): `none` means no `--file-lines`
scoping; `some rs` is the list of half-open 0-based line ranges. -/
def compute_line_ranges : RunKind → Option (List (Nat × Nat))
  | .FixingForSliceInitial context =>
    match context.edits_since_last_fixing_run, context.last_fixing_run_violations with
    | some edits_since_last_fixing_run, some last_fixing_run_violations =>
      some
        ((edits_since_last_fixing_run.new_ranges.map
            (fun range => (range.start_point.row, range.end_point.row + 1))) ++
          last_fixing_run_violations.map
            (fun violation =>
              edits_since_last_fixing_run.new_line_range
                violation.range.start_byte violation.range.end_byte))
    | _, _ => none
  | .FixingForSliceFixingLoop all_violations_from_last_pass all_fixes_from_last_pass =>
    some
      ((all_violations_from_last_pass.map
          (fun violation =>
            (violation.range.start_point.row, violation.range.end_point.row + 1))) ++
        all_fixes_from_last_pass.map
          (fun p => (p.1.start_position.row, p.1.new_end_position.row + 1)))
  | _ => none

/-- The `--file-lines` serialization payload: each selected line range is
paired with the constant virtual filename `"stdin"`
(`FileLineRange::new("stdin", line_range)`). -/
def scoping_instruction (line_ranges : List (Nat × Nat)) : List FileLineRange :=
  line_ranges.map (fun line_range => FileLineRange.new "stdin" line_range)

/-- The constant the Mismatch Parser asserts against the returned file
name (`assert_eq!(file_with_mismatches.name, "<stdin>")`). -/
def expected_stdin_name : String := "<stdin>"

/-- `get_newline_offsets`: indices of the `b'\n'` bytes of the slice, in
scan order. -/
def get_newline_offsets (slice : List Nat) : List Nat :=
  slice.enum.filterMap (fun p => if p.2 = 10 then some p.1 else none)

/-- The lines of a byte buffer, each line keeping its terminating newline
byte; a final segment without a terminator is also a line.  This is the
reference notion of "document line" used to state localization facts. -/
def linesOf : List Nat → List (List Nat)
  | [] => []
  | b :: rest =>
    if b = 10 then
      [10] :: linesOf rest
    else
      match linesOf rest with
      | [] => [[b]]
      | L :: Ls => (b :: L) :: Ls

/-- Byte offset of the start of 0-based line `n` (equivalently: one past
the `(n-1)`-th newline, clamped to the buffer length).  This models
ropey's `Rope::line_to_byte` on the byte content of the rope. -/
def line_to_byte (text : List Nat) (n : Nat) : Nat :=
  if n = 0 then 0
  else
    match (get_newline_offsets text)[n - 1]? with
    | some offset => offset + 1
    | none => text.length

/-- The line-terminator invariant asserted for each mismatch:
`(original.is_empty() || original.ends_with('\n')) &&
 (expected.is_empty() || expected.ends_with('\n'))`. -/
def mismatch_line_invariant (m : Mismatch) : Bool :=
  (m.original.isEmpty || m.original.getLast? == some 10) &&
    (m.expected.isEmpty || m.expected.getLast? == some 10)

/-- Localization of one mismatch against the `RopeOrSlice::Rope` branch. -/
def rope_range (rope : List Nat) (m : Mismatch) : Range :=
  let start_byte := line_to_byte rope (m.original_begin_line - 1)
  let start_point : Point := { row := m.original_begin_line - 1, column := 0 }
  { start_byte := start_byte
    end_byte :=
      if m.original.isEmpty then start_byte
      else line_to_byte rope m.original_end_line
    start_point := start_point
    end_point :=
      if m.original.isEmpty then start_point
      else { row := m.original_end_line, column := 0 } }

/-- Localization of one mismatch against the `RopeOrSlice::Slice` branch,
via the newline offsets of the buffer. -/
def slice_range (slice : List Nat) (m : Mismatch) : Range :=
  let newline_offsets := get_newline_offsets slice
  let start_byte :=
    if 2 ≤ m.original_begin_line then
      match newline_offsets[m.original_begin_line - 2]? with
      | some newline_offset => newline_offset + 1
      | none => slice.length
    else 0
  let start_point : Point := { row := m.original_begin_line - 1, column := 0 }
  { start_byte := start_byte
    end_byte :=
      if m.original.isEmpty then start_byte
      else
        match newline_offsets[m.original_end_line - 1]? with
        | some newline_offset => newline_offset + 1
        | none => slice.length
    start_point := start_point
    end_point :=
      if m.original.isEmpty then start_point
      else { row := m.original_end_line, column := 0 } }

/-- The two document-text representations (`tree_sitter_grep::RopeOrSlice`),
both carrying their byte content. -/
inductive RopeOrSlice where
  | Rope (rope : List Nat)
  | Slice (slice : List Nat)

/-- Dispatch of the range localization on the representation. -/
def localize : RopeOrSlice → Mismatch → Range
  | .Rope rope, m => rope_range rope m
  | .Slice slice, m => slice_range slice m

/-- A diagnostic printed to the operator's error channel (`eprintln!`). -/
inductive Warning where
  | runningRustfmtFailed (err : String)
  | rustfmtReturnedError (stderr : List Nat)
  deriving Repr, DecidableEq

/-- Outcome of one invocation: `fatal` is a Rust panic
(`unwrap` / `expect` / `assert!` failure, aborting the whole run); `ok
warnings violations` is a normal return after printing `warnings` and
reporting the localized `violations`. -/
inductive RunOutcome where
  | fatal (msg : String)
  | ok (warnings : List Warning) (violations : List Range)
  deriving Repr, DecidableEq

/-- Captured subprocess output (`std::process::Output`). -/
structure Output where
  status_success : Bool
  stdout : List Nat
  stderr : List Nat

/-- Per-invocation external environment: result of spawning the `rustfmt`
subprocess, of writing the document to its stdin, of awaiting its output,
and the JSON deserialization oracle for `Vec<FileWithMismatches>`
(applied to stdout bytes that decoded as UTF-8; `none` models a serde
failure). -/
structure Env where
  spawn_result : Except String Unit
  write_result : Except String Unit
  wait_result : Except String Output
  parse_json : List Nat → Option (List FileWithMismatches)

/-- Whether a byte sequence is valid UTF-8 (the success condition of
Rust's `String::from_utf8` / `str::from_utf8`); continuation bytes are
`0x80..=0xBF`. -/
def isContinuation (b : Nat) : Bool := 0x80 ≤ b && b ≤ 0xBF

/-- Valid-UTF-8 test over a byte list, following the standard table:
ASCII; 2-byte leads `0xC2..=0xDF`; 3-byte leads `0xE0` (second byte
`0xA0..=0xBF`), `0xE1..=0xEC`/`0xEE`/`0xEF`, `0xED` (second byte
`0x80..=0x9F`, excluding surrogates); 4-byte leads `0xF0` (second byte
`0x90..=0xBF`), `0xF1..=0xF3`, `0xF4` (second byte `0x80..=0x8F`). -/
def isValidUtf8 : List Nat → Bool
  | [] => true
  | b :: rest =>
    if b ≤ 0x7F then isValidUtf8 rest
    else if 0xC2 ≤ b && b ≤ 0xDF then
      match rest with
      | c1 :: rest1 => isContinuation c1 && isValidUtf8 rest1
      | [] => false
    else if b = 0xE0 then
      match rest with
      | c1 :: c2 :: rest2 =>
        (0xA0 ≤ c1 && c1 ≤ 0xBF) && (isContinuation c2 && isValidUtf8 rest2)
      | _ => false
    else if (0xE1 ≤ b && b ≤ 0xEC) || b = 0xEE || b = 0xEF then
      match rest with
      | c1 :: c2 :: rest2 =>
        isContinuation c1 && (isContinuation c2 && isValidUtf8 rest2)
      | _ => false
    else if b = 0xED then
      match rest with
      | c1 :: c2 :: rest2 =>
        (0x80 ≤ c1 && c1 ≤ 0x9F) && (isContinuation c2 && isValidUtf8 rest2)
      | _ => false
    else if b = 0xF0 then
      match rest with
      | c1 :: c2 :: c3 :: rest3 =>
        (0x90 ≤ c1 && c1 ≤ 0xBF) &&
          (isContinuation c2 && (isContinuation c3 && isValidUtf8 rest3))
      | _ => false
    else if 0xF1 ≤ b && b ≤ 0xF3 then
      match rest with
      | c1 :: c2 :: c3 :: rest3 =>
        isContinuation c1 && (isContinuation c2 && (isContinuation c3 && isValidUtf8 rest3))
      | _ => false
    else if b = 0xF4 then
      match rest with
      | c1 :: c2 :: c3 :: rest3 =>
        (0x80 ≤ c1 && c1 ≤ 0x8F) &&
          (isContinuation c2 && (isContinuation c3 && isValidUtf8 rest3))
      | _ => false
    else false

/-- The per-mismatch loop of `run_rustfmt`: assert the line-terminator
invariant, localize, and report (as a fix-capable violation; we record
the localized range).  The first invariant failure panics the run. -/
def process_mismatches (contents : RopeOrSlice) : List Mismatch → RunOutcome
  | [] => .ok [] []
  | m :: rest =>
    if mismatch_line_invariant m then
      match process_mismatches contents rest with
      | .fatal msg => .fatal msg
      | .ok warnings violations => .ok warnings (localize contents m :: violations)
    else .fatal "Looks like rustfmt is emitting entire lines?"

/-- The `run_rustfmt` pipeline, from the early `NonfixingForSlice` return
through spawn / write / wait, exit-status handling, JSON decoding, the
file-count and file-name assertions, and the mismatch loop. -/
def run_rustfmt (env : Env) (file_contents : RopeOrSlice) (run_kind : RunKind) :
    RunOutcome :=
  if run_kind.isNonfixingForSlice then .ok [] []
  else
    match env.spawn_result with
    | .error err => .fatal ("failed to spawn rustfmt: " ++ err)
    | .ok _ =>
      match env.write_result with
      | .error _ => .fatal "Failed to write to stdin"
      | .ok _ =>
        match env.wait_result with
        | .error err => .ok [.runningRustfmtFailed err] []
        | .ok output =>
          if !output.status_success then
            if isValidUtf8 output.stderr then
              .ok [.rustfmtReturnedError output.stderr] []
            else .fatal "Could not parse stderr as utf8"
          else if !isValidUtf8 output.stdout then .fatal "Did not get JSON output"
          else
            match env.parse_json output.stdout with
            | none => .fatal "Could not deserialize JSON output"
            | some files_with_mismatches =>
              if files_with_mismatches.isEmpty then .ok [] []
              else if files_with_mismatches.length ≠ 1 then
                .fatal "assertion failed: files_with_mismatches.len() == 1"
              else
                match files_with_mismatches with
                | [] => .ok [] []
                | file_with_mismatches :: _ =>
                  if file_with_mismatches.name ≠ expected_stdin_name then
                    .fatal "assertion failed: file_with_mismatches.name == stdin name"
                  else process_mismatches file_contents file_with_mismatches.mismatches

/-- Whether an outcome is a Rust panic (as opposed to a normal return). -/
def RunOutcome.isFatal : RunOutcome → Bool
  | .fatal _ => true
  | .ok _ _ => false

/-- Modelled from the spec: the claimed behavior of the line-range
selection in which, also in the `FixingForSliceFixingLoop` case, the
line range contributed by each prior violation is obtained by first
translating the violation's original byte range through the edit-delta's
translation function `translate` and then taking the translated
position's line span.  (The source's `FixingForSliceFixingLoop` branch
takes the recorded point rows directly and performs no translation; this
definition exists only to be compared against `compute_line_ranges`.) -/
def compute_line_ranges_claimed (translate : Nat → Nat → Nat × Nat) :
    RunKind → Option (List (Nat × Nat))
  | .FixingForSliceInitial context =>
    match context.edits_since_last_fixing_run, context.last_fixing_run_violations with
    | some edits_since_last_fixing_run, some last_fixing_run_violations =>
      some
        ((edits_since_last_fixing_run.new_ranges.map
            (fun range => (range.start_point.row, range.end_point.row + 1))) ++
          last_fixing_run_violations.map
            (fun violation =>
              edits_since_last_fixing_run.new_line_range
                violation.range.start_byte violation.range.end_byte))
    | _, _ => none
  | .FixingForSliceFixingLoop all_violations_from_last_pass all_fixes_from_last_pass =>
    some
      ((all_violations_from_last_pass.map
          (fun violation =>
            translate violation.range.start_byte violation.range.end_byte)) ++
        all_fixes_from_last_pass.map
          (fun p => (p.1.start_position.row, p.1.new_end_position.row + 1)))
  | _ => none

/-- Recursive characterization of the newline scan, carrying the index of
the first byte of the remaining suffix. -/
def nlAux : Nat → List Nat → List Nat
  | _, [] => []
  | i, b :: rest => if b = 10 then i :: nlAux (i + 1) rest else nlAux (i + 1) rest

/-- An environment whose subprocess succeeds with empty output and whose
JSON oracle always fails; concrete environments below override fields. -/
def env_base : Env :=
  { spawn_result := .ok ()
    write_result := .ok ()
    wait_result := .ok { status_success := true, stdout := [], stderr := [] }
    parse_json := fun _ => none }

/-- Environment in which spawning the formatter fails (missing binary). -/
def env_spawn_fail : Env :=
  { env_base with spawn_result := .error "No such file or directory" }

/-- Environment in which awaiting the subprocess's output fails. -/
def env_wait_fail : Env :=
  { env_base with wait_result := .error "broken pipe" }

/-- Environment in which the subprocess exits non-zero with the given
stderr bytes. -/
def env_exit_err (stderr : List Nat) : Env :=
  { env_base with
    wait_result := .ok { status_success := false, stdout := [], stderr := stderr } }

/-- Environment in which the subprocess succeeds and its output decodes
to the given file records. -/
def env_files (files : List FileWithMismatches) : Env :=
  { env_base with parse_json := fun _ => some files }

/-- A sample document, the bytes of "a\nb\n". -/
def sample_slice : List Nat := [97, 10, 98, 10]

/-- A sample whole-line mismatch on line 2 of `sample_slice`. -/
def sample_mismatch : Mismatch :=
  { original_begin_line := 2, original_end_line := 2
    expected_begin_line := 2, expected_end_line := 2
    original := [98, 10], expected := [99, 10] }

/-- A mismatch violating the line-terminator invariant (`original` is
non-empty and does not end with a newline byte). -/
def bad_mismatch : Mismatch :=
  { original_begin_line := 1, original_end_line := 1
    expected_begin_line := 1, expected_end_line := 1
    original := [98], expected := [99, 10] }

/-- A sample whole-line mismatch on line 1 of `sample_slice`. -/
def first_line_mismatch : Mismatch :=
  { original_begin_line := 1, original_end_line := 1
    expected_begin_line := 1, expected_end_line := 1
    original := [97, 10], expected := [99, 10] }

/-- A prior violation whose recorded points sit on row 0 while its byte
range lies far later in the document. -/
def loop_violation : Violation :=
  { range :=
      { start_byte := 100, end_byte := 105
        start_point := { row := 0, column := 0 }
        end_point := { row := 0, column := 0 } } }

/-- A translation function under which `loop_violation`'s byte range lands
on line 7. -/
def loop_translate : Nat → Nat → Nat × Nat := fun _ _ => (7, 8)

/-! ### Newline-index lemmas -/

theorem enumFrom_filterMap_eq_nlAux (l : List Nat) :
    ∀ n : Nat,
      (List.enumFrom n l).filterMap (fun p => if p.2 = 10 then some p.1 else none) =
        nlAux n l := by
  induction l with
  | nil => intro n; rfl
  | cons b rest ih =>
    intro n
    show List.filterMap _ ((n, b) :: List.enumFrom (n + 1) rest) = _
    rw [List.filterMap_cons]
    by_cases hb : b = 10
    · simp only [hb, nlAux, if_pos rfl]
      exact congrArg (n :: ·) (ih (n + 1))
    · simp only [nlAux, if_neg hb]
      exact ih (n + 1)

theorem get_newline_offsets_eq_nlAux (l : List Nat) :
    get_newline_offsets l = nlAux 0 l :=
  enumFrom_filterMap_eq_nlAux l 0

theorem nlAux_eq_map (l : List Nat) :
    ∀ i : Nat, nlAux i l = (nlAux 0 l).map (· + i) := by
  induction l with
  | nil => intro i; rfl
  | cons b rest ih =>
    intro i
    by_cases hb : b = 10
    · simp only [nlAux, if_pos hb]
      rw [ih (i + 1), ih 1, List.map_cons, List.map_map]
      refine congrArg₂ _ (by omega) ?_
      refine List.map_congr_left (fun x _ => ?_)
      simp [Function.comp]
      omega
    · simp only [nlAux, if_neg hb]
      rw [ih (i + 1), ih 1, List.map_map]
      refine List.map_congr_left (fun x _ => ?_)
      simp [Function.comp]
      omega

theorem get_newline_offsets_nil : get_newline_offsets [] = [] := rfl

theorem get_newline_offsets_cons (b : Nat) (rest : List Nat) :
    get_newline_offsets (b :: rest) =
      if b = 10 then 0 :: (get_newline_offsets rest).map (· + 1)
      else (get_newline_offsets rest).map (· + 1) := by
  rw [get_newline_offsets_eq_nlAux, get_newline_offsets_eq_nlAux]
  by_cases hb : b = 10
  · simp only [nlAux, if_pos hb, nlAux_eq_map rest 1]
  · simp only [nlAux, if_neg hb, nlAux_eq_map rest 1]

theorem mem_get_newline_offsets (l : List Nat) :
    ∀ j : Nat, j ∈ get_newline_offsets l ↔ l[j]? = some 10 := by
  induction l with
  | nil => intro j; simp [get_newline_offsets_nil]
  | cons b rest ih =>
    intro j
    rw [get_newline_offsets_cons]
    by_cases hb : b = 10
    · rw [if_pos hb]
      cases j with
      | zero => simp [hb]
      | succ k =>
        rw [List.getElem?_cons_succ, ← ih k]
        simp only [List.mem_cons, List.mem_map]
        constructor
        · rintro (h | ⟨x, hx, hxe⟩)
          · omega
          · have : x = k := by omega
            exact this ▸ hx
        · intro h
          exact Or.inr ⟨k, h, rfl⟩
    · rw [if_neg hb]
      cases j with
      | zero =>
        simp only [List.getElem?_cons_zero, List.mem_map]
        constructor
        · rintro ⟨x, _, hxe⟩; omega
        · intro h
          exact absurd (Option.some.inj h) hb
      | succ k =>
        rw [List.getElem?_cons_succ, ← ih k]
        simp only [List.mem_map]
        constructor
        · rintro ⟨x, hx, hxe⟩
          have : x = k := by omega
          exact this ▸ hx
        · intro h
          exact ⟨k, h, rfl⟩

theorem get_newline_offsets_sorted (l : List Nat) :
    List.Pairwise (· < ·) (get_newline_offsets l) := by
  induction l with
  | nil => simp [get_newline_offsets_nil]
  | cons b rest ih =>
    rw [get_newline_offsets_cons]
    have hmap : List.Pairwise (· < ·) ((get_newline_offsets rest).map (· + 1)) := by
      rw [List.pairwise_map]
      exact ih.imp (by omega)
    by_cases hb : b = 10
    · rw [if_pos hb]
      refine List.pairwise_cons.mpr ⟨?_, hmap⟩
      intro x hx
      rcases List.mem_map.mp hx with ⟨y, _, hy⟩
      omega
    · rw [if_neg hb]; exact hmap

theorem get_newline_offsets_mem_lt_length (l : List Nat) (j : Nat)
    (h : j ∈ get_newline_offsets l) : j < l.length :=
  (List.getElem?_eq_some.mp ((mem_get_newline_offsets l j).mp h)).1

theorem getElem?_mono_none {xs : List Nat} {i j : Nat} (hij : i ≤ j)
    (h : xs[i]? = none) : xs[j]? = none := by
  rw [List.getElem?_eq_none_iff] at h ⊢
  omega

/-! ### Line-offset lemmas -/

theorem line_to_byte_zero (l : List Nat) : line_to_byte l 0 = 0 := rfl

theorem line_to_byte_cons_nl (rest : List Nat) (k : Nat) :
    line_to_byte (10 :: rest) (k + 1) = line_to_byte rest k + 1 := by
  unfold line_to_byte
  rw [get_newline_offsets_cons, if_pos rfl]
  cases k with
  | zero => simp
  | succ k =>
    simp only [Nat.add_sub_cancel, if_neg (Nat.succ_ne_zero k), if_neg (Nat.succ_ne_zero (k + 1))]
    rw [List.getElem?_cons_succ, List.getElem?_map]
    cases h : (get_newline_offsets rest)[k]? with
    | none => simp [h, List.length_cons]
    | some o => simp [h]

theorem line_to_byte_cons_other {b : Nat} (hb : b ≠ 10) (rest : List Nat) (k : Nat) :
    line_to_byte (b :: rest) (k + 1) = line_to_byte rest (k + 1) + 1 := by
  unfold line_to_byte
  rw [get_newline_offsets_cons, if_neg hb]
  simp only [Nat.add_sub_cancel, if_neg (Nat.succ_ne_zero k)]
  rw [List.getElem?_map]
  cases h : (get_newline_offsets rest)[k]? with
  | none => simp [h, List.length_cons]
  | some o => simp [h]

theorem line_to_byte_le_length (l : List Nat) (k : Nat) :
    line_to_byte l k ≤ l.length := by
  unfold line_to_byte
  by_cases hk : k = 0
  · simp [hk]
  · rw [if_neg hk]
    cases h : (get_newline_offsets l)[k - 1]? with
    | none => exact Nat.le_refl _
    | some o =>
      obtain ⟨hlt, he⟩ := List.getElem?_eq_some.mp h
      have : o ∈ get_newline_offsets l := he ▸ List.getElem_mem hlt
      exact get_newline_offsets_mem_lt_length l o this

/-! ### Line-decomposition lemmas -/

theorem linesOf_cons (b : Nat) (rest : List Nat) :
    linesOf (b :: rest) =
      if b = 10 then [10] :: linesOf rest
      else
        match linesOf rest with
        | [] => [[b]]
        | L :: Ls => (b :: L) :: Ls := by
  simp only [linesOf]

theorem linesOf_ne_nil (b : Nat) (rest : List Nat) : linesOf (b :: rest) ≠ [] := by
  rw [linesOf_cons]
  by_cases hb : b = 10
  · simp [hb]
  · rw [if_neg hb]
    cases linesOf rest <;> simp

theorem eq_nil_of_linesOf_eq_nil {l : List Nat} (h : linesOf l = []) : l = [] := by
  cases l with
  | nil => rfl
  | cons b rest => exact absurd h (linesOf_ne_nil b rest)

/-- Central bridge: the concatenation of the first `k` document lines is
exactly the byte prefix up to the start offset of line `k`. -/
theorem flatten_take_linesOf (l : List Nat) :
    ∀ k : Nat, k ≤ (linesOf l).length →
      ((linesOf l).take k).flatten = l.take (line_to_byte l k) := by
  induction l with
  | nil => intro k _; cases k <;> simp [linesOf, line_to_byte]
  | cons b rest ih =>
    intro k hk
    cases k with
    | zero => simp [line_to_byte_zero]
    | succ k =>
      by_cases hb : b = 10
      · subst hb
        have hlines : linesOf (10 :: rest) = [10] :: linesOf rest := by
          rw [linesOf_cons, if_pos rfl]
        rw [hlines] at hk ⊢
        simp only [List.length_cons] at hk
        rw [List.take_succ_cons, List.flatten_cons, line_to_byte_cons_nl,
          ih k (by omega), List.take_succ_cons]
        rfl
      · cases hrest : linesOf rest with
        | nil =>
          have : rest = [] := eq_nil_of_linesOf_eq_nil hrest
          subst this
          have hlines : linesOf [b] = [[b]] := by
            rw [linesOf_cons, if_neg hb, hrest]
          rw [hlines] at hk ⊢
          simp only [List.length_cons, List.length_nil] at hk
          have hk0 : k = 0 := by omega
          subst hk0
          have : line_to_byte [b] 1 = 1 := by
            unfold line_to_byte
            rw [get_newline_offsets_cons, if_neg hb]
            simp [get_newline_offsets_nil]
          rw [this]
          simp
        | cons L Ls =>
          have hlines : linesOf (b :: rest) = (b :: L) :: Ls := by
            rw [linesOf_cons, if_neg hb, hrest]
          have hk2 : k + 1 ≤ (linesOf rest).length := by
            rw [hrest]
            rw [hlines] at hk
            simp only [List.length_cons] at hk ⊢
            omega
          have hih := ih (k + 1) hk2
          rw [hrest, List.take_succ_cons, List.flatten_cons] at hih
          rw [hlines, List.take_succ_cons, List.flatten_cons,
            line_to_byte_cons_other hb, List.take_succ_cons, List.cons_append, hih]

/-- The start offset of line `k` equals the total length of the first `k`
document lines. -/
theorem line_to_byte_eq_sum (l : List Nat) (k : Nat) (hk : k ≤ (linesOf l).length) :
    line_to_byte l k = (((linesOf l).take k).map List.length).sum := by
  have hb := flatten_take_linesOf l k hk
  have hlen := congrArg List.length hb
  rw [List.length_flatten] at hlen
  rw [hlen, List.length_take]
  exact (Nat.min_eq_left (line_to_byte_le_length l k)).symm

/-! ### Localization lemmas -/

theorem Range.eq_of_fields {r s : Range} (h1 : r.start_byte = s.start_byte)
    (h2 : r.end_byte = s.end_byte) (h3 : r.start_point = s.start_point)
    (h4 : r.end_point = s.end_point) : r = s := by
  cases r; cases s; simp_all

theorem nl_strict_mono (l : List Nat) {i j x y : Nat} (hij : i < j)
    (hx : (get_newline_offsets l)[i]? = some x)
    (hy : (get_newline_offsets l)[j]? = some y) : x < y := by
  have hp := get_newline_offsets_sorted l
  have hi : i < (get_newline_offsets l).length := (List.getElem?_eq_some.mp hx).1
  have hj : j < (get_newline_offsets l).length := (List.getElem?_eq_some.mp hy).1
  have := List.pairwise_iff_getElem.mp hp i j hi hj hij
  rw [List.getElem?_eq_getElem hi] at hx
  rw [List.getElem?_eq_getElem hj] at hy
  have hx2 := Option.some.inj hx
  have hy2 := Option.some.inj hy
  omega

theorem line_to_byte_pos_eq (l : List Nat) (k : Nat) (hk : k ≠ 0) :
    line_to_byte l k =
      match (get_newline_offsets l)[k - 1]? with
      | some offset => offset + 1
      | none => l.length := by
  unfold line_to_byte
  rw [if_neg hk]

theorem line_to_byte_mono (l : List Nat) {j k : Nat} (hjk : j ≤ k) :
    line_to_byte l j ≤ line_to_byte l k := by
  by_cases hj : j = 0
  · simp [hj, line_to_byte_zero]
  · have hk : k ≠ 0 := by omega
    cases h1 : (get_newline_offsets l)[j - 1]? with
    | none =>
      have h2 := getElem?_mono_none (show j - 1 ≤ k - 1 by omega) h1
      rw [line_to_byte_pos_eq l j hj, line_to_byte_pos_eq l k hk, h1, h2]
    | some o1 =>
      cases h2 : (get_newline_offsets l)[k - 1]? with
      | none =>
        rw [line_to_byte_pos_eq l j hj, line_to_byte_pos_eq l k hk, h1, h2]
        show o1 + 1 ≤ l.length
        obtain ⟨hlt, he⟩ := List.getElem?_eq_some.mp h1
        have hmem : o1 ∈ get_newline_offsets l := he ▸ List.getElem_mem hlt
        have := get_newline_offsets_mem_lt_length l o1 hmem
        omega
      | some o2 =>
        rw [line_to_byte_pos_eq l j hj, line_to_byte_pos_eq l k hk, h1, h2]
        show o1 + 1 ≤ o2 + 1
        by_cases hjke : j = k
        · subst hjke
          have := Option.some.inj (h1.symm.trans h2)
          omega
        · have := nl_strict_mono l (show j - 1 < k - 1 by omega) h1 h2
          omega

theorem slice_range_start_eq (slice : List Nat) (m : Mismatch) :
    (slice_range slice m).start_byte = line_to_byte slice (m.original_begin_line - 1) := by
  show (if 2 ≤ m.original_begin_line then
      match (get_newline_offsets slice)[m.original_begin_line - 2]? with
      | some newline_offset => newline_offset + 1
      | none => slice.length
    else 0) = _
  by_cases h : 2 ≤ m.original_begin_line
  · rw [if_pos h, line_to_byte_pos_eq slice _ (show m.original_begin_line - 1 ≠ 0 by omega),
      show m.original_begin_line - 1 - 1 = m.original_begin_line - 2 by omega]
  · rw [if_neg h, show m.original_begin_line - 1 = 0 by omega, line_to_byte_zero]

theorem slice_range_end_eq (slice : List Nat) (m : Mismatch)
    (hne : m.original.isEmpty = false) (hb : 1 ≤ m.original_end_line) :
    (slice_range slice m).end_byte = line_to_byte slice m.original_end_line := by
  rw [line_to_byte_pos_eq slice _ (show m.original_end_line ≠ 0 by omega)]
  simp only [slice_range, hne, Bool.false_eq_true, if_false]

theorem rope_range_eq_slice_range (l : List Nat) (m : Mismatch)
    (hne : m.original.isEmpty = false) (hb : 1 ≤ m.original_end_line) :
    rope_range l m = slice_range l m := by
  refine Range.eq_of_fields ?_ ?_ ?_ ?_
  · rw [slice_range_start_eq]; rfl
  · rw [slice_range_end_eq l m hne hb]
    simp only [rope_range, hne, Bool.false_eq_true, if_false]
  · rfl
  · simp only [rope_range, slice_range, hne, Bool.false_eq_true, if_false]

/-! ### Claim theorems -/

/-- C2 counterexample: the virtual filename serialized into the scoping
instruction is `"stdin"`, which is NOT the filename the parser asserts on
the returned record: a run whose returned file record is named `"stdin"`
(equal to the serialization constant) trips the fatal name assertion. -/
theorem C2_counterexample :
    scoping_instruction [(0, 1)] = [{ file := "stdin", range := (0, 1) }] ∧
    (FileLineRange.new "stdin" (0, 1)).file ≠ expected_stdin_name ∧
    run_rustfmt (env_files [{ name := "stdin", mismatches := [] }])
        (RopeOrSlice.Slice []) RunKind.Unscoped =
      RunOutcome.fatal "assertion failed: file_with_mismatches.name == stdin name" := by
  refine ⟨rfl, by decide, by decide⟩

/-- C2 (amended): every entry of the serialized scoping instruction uses
the constant virtual filename `"stdin"`, while the Mismatch Parser
asserts that the returned file record is named `"<stdin>"`; the two
constants are different strings. -/
theorem C2_amended (line_ranges : List (Nat × Nat)) (entry : FileLineRange)
    (h : entry ∈ scoping_instruction line_ranges) :
    entry.file = "stdin" ∧ expected_stdin_name = "<stdin>" ∧
      entry.file ≠ expected_stdin_name := by
  rcases List.mem_map.mp h with ⟨lr, _, he⟩
  subst he
  exact ⟨rfl, rfl, show ("stdin" : String) ≠ expected_stdin_name by decide⟩

/-- C2 witness: the amended statement at the singleton scoping list. -/
theorem C2_witness :
    (FileLineRange.new "stdin" (0, 1)).file = "stdin" ∧
    expected_stdin_name = "<stdin>" ∧
    (FileLineRange.new "stdin" (0, 1)).file ≠ expected_stdin_name :=
  C2_amended [(0, 1)] (FileLineRange.new "stdin" (0, 1)) (by decide)

/-- C4 counterexample: in the `FixingForSliceFixingLoop` case the code
contributes `[start_point.row, end_point.row + 1)` for a prior violation,
not the line span of its byte range translated through a translation
function: for `loop_violation` (points on row 0, bytes 100..105) the code
yields `(0, 1)` while the claimed translate-then-span procedure yields
`(7, 8)` under `loop_translate`. -/
theorem C4_counterexample :
    compute_line_ranges (RunKind.FixingForSliceFixingLoop [loop_violation] []) =
      some [(0, 1)] ∧
    compute_line_ranges_claimed loop_translate
        (RunKind.FixingForSliceFixingLoop [loop_violation] []) =
      some [(7, 8)] ∧
    some [((0 : Nat), (1 : Nat))] ≠ some [((7 : Nat), (8 : Nat))] := by
  refine ⟨rfl, rfl, by decide⟩

/-- C4 (amended): only the `FixingForSliceInitial` scoped check translates
each prior violation's original byte range through the edit-delta's
translation function; the `FixingForSliceFixingLoop` case takes each
prior violation's recorded point rows directly as
`[start_row, end_row + 1)` with no translation (and each fix contributes
its input edit's `[start_position.row, new_end_position.row + 1)`). -/
theorem C4_amended (edits : EditDelta) (violations : List Violation)
    (fixes : List (InputEdit × Unit)) :
    (compute_line_ranges (RunKind.FixingForSliceInitial
        { edits_since_last_fixing_run := some edits
          last_fixing_run_violations := some violations }) =
      some ((edits.new_ranges.map
          (fun range => (range.start_point.row, range.end_point.row + 1))) ++
        violations.map
          (fun violation =>
            edits.new_line_range violation.range.start_byte violation.range.end_byte))) ∧
    (compute_line_ranges (RunKind.FixingForSliceFixingLoop violations fixes) =
      some ((violations.map
          (fun violation =>
            (violation.range.start_point.row, violation.range.end_point.row + 1))) ++
        fixes.map (fun p => (p.1.start_position.row, p.1.new_end_position.row + 1)))) :=
  ⟨rfl, rfl⟩

/-- C5: byte-buffer localization: start byte is 0 when
`original_begin_line < 2`, otherwise one past the
`(original_begin_line - 2)`-th newline offset clamped to the buffer
length; end byte equals the start byte when `original` is empty,
otherwise one past the `(original_end_line - 1)`-th newline offset
clamped to the buffer length; start point is
`(original_begin_line - 1, 0)` and end point is the start point when
`original` is empty, otherwise `(original_end_line, 0)`. -/
theorem C5_slice_localization (slice : List Nat) (m : Mismatch) :
    ((slice_range slice m).start_byte =
      if m.original_begin_line < 2 then 0
      else
        match (get_newline_offsets slice)[m.original_begin_line - 2]? with
        | some offset => offset + 1
        | none => slice.length) ∧
    ((slice_range slice m).end_byte =
      if m.original.isEmpty then (slice_range slice m).start_byte
      else
        match (get_newline_offsets slice)[m.original_end_line - 1]? with
        | some offset => offset + 1
        | none => slice.length) ∧
    (slice_range slice m).start_point = { row := m.original_begin_line - 1, column := 0 } ∧
    (slice_range slice m).end_point =
      (if m.original.isEmpty then (slice_range slice m).start_point
       else { row := m.original_end_line, column := 0 }) := by
  refine ⟨?_, rfl, rfl, rfl⟩
  show (if 2 ≤ m.original_begin_line then
      match (get_newline_offsets slice)[m.original_begin_line - 2]? with
      | some newline_offset => newline_offset + 1
      | none => slice.length
    else 0) = _
  by_cases h : 2 ≤ m.original_begin_line
  · rw [if_pos h, if_neg (show ¬ m.original_begin_line < 2 by omega)]
  · rw [if_neg h, if_pos (show m.original_begin_line < 2 by omega)]

/-- C6: rope localization: the start byte is the byte offset of line
`original_begin_line - 1` (the total length of the document lines before
it); the end byte equals the start byte when `original` is empty and is
the byte offset of line `original_end_line` otherwise; the start point is
`(original_begin_line - 1, 0)` and the end point equals the start point
when `original` is empty, otherwise `(original_end_line, 0)`. -/
theorem C6_rope_localization (rope : List Nat) (m : Mismatch)
    (h1 : m.original_begin_line - 1 ≤ (linesOf rope).length)
    (h2 : m.original_end_line ≤ (linesOf rope).length) :
    ((rope_range rope m).start_byte =
      (((linesOf rope).take (m.original_begin_line - 1)).map List.length).sum) ∧
    ((rope_range rope m).end_byte =
      if m.original.isEmpty then (rope_range rope m).start_byte
      else (((linesOf rope).take m.original_end_line).map List.length).sum) ∧
    (rope_range rope m).start_point = { row := m.original_begin_line - 1, column := 0 } ∧
    (rope_range rope m).end_point =
      (if m.original.isEmpty then (rope_range rope m).start_point
       else { row := m.original_end_line, column := 0 }) := by
  refine ⟨line_to_byte_eq_sum rope _ h1, ?_, rfl, rfl⟩
  cases he : m.original.isEmpty with
  | true => simp [rope_range, he]
  | false =>
    simp only [he, Bool.false_eq_true, if_false]
    rw [show (rope_range rope m).end_byte = line_to_byte rope m.original_end_line from by
      simp only [rope_range, he, Bool.false_eq_true, if_false]]
    exact line_to_byte_eq_sum rope _ h2

/-- C6 witness: the rope localization facts at `sample_slice` and
`sample_mismatch`. -/
theorem C6_witness :
    ((rope_range sample_slice sample_mismatch).start_byte =
      (((linesOf sample_slice).take (sample_mismatch.original_begin_line - 1)).map
        List.length).sum) ∧
    ((rope_range sample_slice sample_mismatch).end_byte =
      if sample_mismatch.original.isEmpty then
        (rope_range sample_slice sample_mismatch).start_byte
      else (((linesOf sample_slice).take sample_mismatch.original_end_line).map
        List.length).sum) ∧
    (rope_range sample_slice sample_mismatch).start_point =
      { row := sample_mismatch.original_begin_line - 1, column := 0 } ∧
    (rope_range sample_slice sample_mismatch).end_point =
      (if sample_mismatch.original.isEmpty then
        (rope_range sample_slice sample_mismatch).start_point
       else { row := sample_mismatch.original_end_line, column := 0 }) :=
  C6_rope_localization sample_slice sample_mismatch (by decide) (by decide)

/-- Shared reduction: once the subprocess has succeeded and its stdout
decoded to `files`, the run reduces to the parser-and-loop tail. -/
theorem run_rustfmt_parsed (env : Env) (file_contents : RopeOrSlice)
    (run_kind : RunKind) (output : Output) (files : List FileWithMismatches)
    (hrk : run_kind.isNonfixingForSlice = false)
    (hs : env.spawn_result = Except.ok ())
    (hw : env.write_result = Except.ok ())
    (hwait : env.wait_result = Except.ok output)
    (hst : output.status_success = true)
    (hutf : isValidUtf8 output.stdout = true)
    (hp : env.parse_json output.stdout = some files) :
    run_rustfmt env file_contents run_kind =
      (if files.isEmpty then RunOutcome.ok [] []
       else if files.length ≠ 1 then
         RunOutcome.fatal "assertion failed: files_with_mismatches.len() == 1"
       else
         match files with
         | [] => RunOutcome.ok [] []
         | file_with_mismatches :: _ =>
           if file_with_mismatches.name ≠ expected_stdin_name then
             RunOutcome.fatal "assertion failed: file_with_mismatches.name == stdin name"
           else process_mismatches file_contents file_with_mismatches.mismatches) := by
  simp only [run_rustfmt, hrk, Bool.false_eq_true, if_false, hs, hw, hwait, hst,
    Bool.not_true, hutf, hp]
  cases files <;> rfl

/-- C1 counterexample: with a failing spawn (e.g. the formatter binary is
missing), the invocation panics — it does not report-and-return with
zero violations. -/
theorem C1_counterexample :
    env_spawn_fail.spawn_result = Except.error "No such file or directory" ∧
    (run_rustfmt env_spawn_fail (RopeOrSlice.Slice []) RunKind.Unscoped).isFatal = true := by
  exact ⟨rfl, rfl⟩

/-- C1 (amended): a spawn failure is unwrapped and panics the run; it is
the failure while awaiting the already-spawned subprocess's output that
is reported to the operator and yields zero violations (fail-open). -/
theorem C1_amended (env : Env) (file_contents : RopeOrSlice) (run_kind : RunKind)
    (hrk : run_kind.isNonfixingForSlice = false) (err : String) :
    (env.spawn_result = Except.error err →
      run_rustfmt env file_contents run_kind =
        RunOutcome.fatal ("failed to spawn rustfmt: " ++ err)) ∧
    (env.spawn_result = Except.ok () → env.write_result = Except.ok () →
      env.wait_result = Except.error err →
      run_rustfmt env file_contents run_kind =
        RunOutcome.ok [Warning.runningRustfmtFailed err] []) := by
  constructor
  · intro hs
    simp only [run_rustfmt, hrk, Bool.false_eq_true, if_false, hs]
  · intro hs hw hwait
    simp only [run_rustfmt, hrk, Bool.false_eq_true, if_false, hs, hw, hwait]

/-- C1 witness: the amended statement at a spawn-failure environment and
at a wait-failure environment. -/
theorem C1_witness :
    run_rustfmt env_spawn_fail (RopeOrSlice.Slice []) RunKind.Unscoped =
      RunOutcome.fatal ("failed to spawn rustfmt: " ++ "No such file or directory") ∧
    run_rustfmt env_wait_fail (RopeOrSlice.Slice []) RunKind.Unscoped =
      RunOutcome.ok [Warning.runningRustfmtFailed "broken pipe"] [] :=
  ⟨(C1_amended env_spawn_fail (RopeOrSlice.Slice []) RunKind.Unscoped rfl
      "No such file or directory").1 rfl,
   (C1_amended env_wait_fail (RopeOrSlice.Slice []) RunKind.Unscoped rfl
      "broken pipe").2 rfl rfl rfl⟩

/-- C3 counterexample: a successfully decoded output whose file-record
array is empty does NOT fail fatally — the invocation returns silently
with zero violations. -/
theorem C3_counterexample :
    (env_files []).parse_json [] = some [] ∧
    (run_rustfmt (env_files []) (RopeOrSlice.Slice []) RunKind.Unscoped).isFatal = false ∧
    run_rustfmt (env_files []) (RopeOrSlice.Slice []) RunKind.Unscoped =
      RunOutcome.ok [] [] := by
  exact ⟨rfl, rfl, rfl⟩

/-- C3 (amended): a decoded file-record array with zero elements yields
zero violations silently; an array with two or more elements fails
fatally on the length assertion. -/
theorem C3_amended (env : Env) (file_contents : RopeOrSlice) (run_kind : RunKind)
    (output : Output) (files : List FileWithMismatches)
    (hrk : run_kind.isNonfixingForSlice = false)
    (hs : env.spawn_result = Except.ok ())
    (hw : env.write_result = Except.ok ())
    (hwait : env.wait_result = Except.ok output)
    (hst : output.status_success = true)
    (hutf : isValidUtf8 output.stdout = true)
    (hp : env.parse_json output.stdout = some files) :
    (files = [] → run_rustfmt env file_contents run_kind = RunOutcome.ok [] []) ∧
    (2 ≤ files.length → run_rustfmt env file_contents run_kind =
      RunOutcome.fatal "assertion failed: files_with_mismatches.len() == 1") := by
  rw [run_rustfmt_parsed env file_contents run_kind output files hrk hs hw hwait hst hutf hp]
  constructor
  · intro hf
    subst hf
    rfl
  · intro hf
    have h1 : files.isEmpty = false := by
      cases files with
      | nil => simp at hf
      | cons f fs => rfl
    have h2 : files.length ≠ 1 := by omega
    rw [h1]
    simp only [Bool.false_eq_true, if_false, if_pos h2]

/-- C3 witness: the amended statement at an empty-array environment and a
two-element-array environment. -/
theorem C3_witness :
    run_rustfmt (env_files []) (RopeOrSlice.Slice []) RunKind.Unscoped =
      RunOutcome.ok [] [] ∧
    run_rustfmt
        (env_files [{ name := "<stdin>", mismatches := [] },
          { name := "<stdin>", mismatches := [] }])
        (RopeOrSlice.Slice []) RunKind.Unscoped =
      RunOutcome.fatal "assertion failed: files_with_mismatches.len() == 1" :=
  ⟨(C3_amended (env_files []) (RopeOrSlice.Slice []) RunKind.Unscoped
      { status_success := true, stdout := [], stderr := [] } [] rfl rfl rfl rfl rfl rfl rfl).1 rfl,
   (C3_amended
      (env_files [{ name := "<stdin>", mismatches := [] },
        { name := "<stdin>", mismatches := [] }])
      (RopeOrSlice.Slice []) RunKind.Unscoped
      { status_success := true, stdout := [], stderr := [] }
      [{ name := "<stdin>", mismatches := [] }, { name := "<stdin>", mismatches := [] }]
      rfl rfl rfl rfl rfl rfl rfl).2 (by decide)⟩

/-- C10: in the non-zero-exit path, when stderr is not valid UTF-8 the
decode is unwrapped and the invocation panics; the fail-open outcome
(warning, zero violations) is produced only for UTF-8 stderr output. -/
theorem C10_stderr_utf8 (env : Env) (file_contents : RopeOrSlice) (run_kind : RunKind)
    (output : Output)
    (hrk : run_kind.isNonfixingForSlice = false)
    (hs : env.spawn_result = Except.ok ())
    (hw : env.write_result = Except.ok ())
    (hwait : env.wait_result = Except.ok output)
    (hst : output.status_success = false) :
    (isValidUtf8 output.stderr = false →
      run_rustfmt env file_contents run_kind =
        RunOutcome.fatal "Could not parse stderr as utf8") ∧
    (isValidUtf8 output.stderr = true →
      run_rustfmt env file_contents run_kind =
        RunOutcome.ok [Warning.rustfmtReturnedError output.stderr] []) := by
  constructor
  · intro hu
    simp only [run_rustfmt, hrk, Bool.false_eq_true, if_false, hs, hw, hwait, hst,
      Bool.not_false, if_true, hu]
  · intro hu
    simp only [run_rustfmt, hrk, Bool.false_eq_true, if_false, hs, hw, hwait, hst,
      Bool.not_false, if_true, hu]

/-- C10 witness: a non-UTF-8 stderr (byte 0xFF) panics; a UTF-8 stderr is
reported as a warning with zero violations. -/
theorem C10_witness :
    run_rustfmt (env_exit_err [255]) (RopeOrSlice.Slice []) RunKind.Unscoped =
      RunOutcome.fatal "Could not parse stderr as utf8" ∧
    run_rustfmt (env_exit_err [104, 105]) (RopeOrSlice.Slice []) RunKind.Unscoped =
      RunOutcome.ok [Warning.rustfmtReturnedError [104, 105]] [] :=
  ⟨(C10_stderr_utf8 (env_exit_err [255]) (RopeOrSlice.Slice []) RunKind.Unscoped
      { status_success := false, stdout := [], stderr := [255] }
      rfl rfl rfl rfl rfl).1 (by decide),
   (C10_stderr_utf8 (env_exit_err [104, 105]) (RopeOrSlice.Slice []) RunKind.Unscoped
      { status_success := false, stdout := [], stderr := [104, 105] }
      rfl rfl rfl rfl rfl).2 (by decide)⟩

/-- C8: the per-mismatch loop asserts, before localizing anything, that
every non-empty `original` and every non-empty `expected` ends with a
line terminator: the loop panics exactly when some mismatch violates the
invariant, and under the precondition the assertion branch is
unreachable — every mismatch is localized and reported. -/
theorem C8_line_invariant (file_contents : RopeOrSlice) (ms : List Mismatch) :
    ((∃ m ∈ ms, mismatch_line_invariant m = false) ↔
      process_mismatches file_contents ms =
        RunOutcome.fatal "Looks like rustfmt is emitting entire lines?") ∧
    ((∀ m ∈ ms, mismatch_line_invariant m = true) →
      process_mismatches file_contents ms =
        RunOutcome.ok [] (ms.map (localize file_contents))) := by
  induction ms with
  | nil =>
    constructor
    · simp [process_mismatches]
    · intro
      simp [process_mismatches]
  | cons m rest ih =>
    cases hm : mismatch_line_invariant m with
    | false =>
      constructor
      · constructor
        · intro
          show (if mismatch_line_invariant m then _ else _) = _
          rw [hm]
          rfl
        · intro
          exact ⟨m, List.mem_cons_self m rest, hm⟩
      · intro hall
        exact absurd (hall m (List.mem_cons_self m rest)) (by simp [hm])
    | true =>
      have hred : process_mismatches file_contents (m :: rest) =
          (match process_mismatches file_contents rest with
           | .fatal msg => .fatal msg
           | .ok warnings violations =>
             .ok warnings (localize file_contents m :: violations)) := by
        show (if mismatch_line_invariant m then _ else _) = _
        rw [hm, if_pos rfl]
      constructor
      · rw [hred]
        cases hpr : process_mismatches file_contents rest with
        | fatal msg =>
          constructor
          · rintro ⟨x, hx, hxinv⟩
            rcases List.mem_cons.mp hx with hxm | hxr
            · subst hxm
              rw [hm] at hxinv
              exact absurd hxinv (by simp)
            · have := ih.1.mp ⟨x, hxr, hxinv⟩
              rw [hpr] at this
              exact this ▸ rfl
          · intro hfatal
            have hmsg : msg = "Looks like rustfmt is emitting entire lines?" :=
              (RunOutcome.fatal.injEq _ _).mp hfatal
            subst hmsg
            rcases ih.1.mpr hpr with ⟨x, hxr, hxinv⟩
            exact ⟨x, List.mem_cons_of_mem m hxr, hxinv⟩
        | ok warnings violations =>
          constructor
          · rintro ⟨x, hx, hxinv⟩
            rcases List.mem_cons.mp hx with hxm | hxr
            · subst hxm
              rw [hm] at hxinv
              exact absurd hxinv (by simp)
            · have := ih.1.mp ⟨x, hxr, hxinv⟩
              rw [hpr] at this
              exact absurd this (by simp)
          · intro hfatal
            exact absurd hfatal (by simp)
      · intro hall
        rw [hred, ih.2 (fun x hx => hall x (List.mem_cons_of_mem m hx)), List.map_cons]

/-- C8 witness: a mismatch whose `original` lacks the terminator panics
the loop; an invariant-respecting mismatch is localized and reported. -/
theorem C8_witness :
    process_mismatches (RopeOrSlice.Slice sample_slice) [bad_mismatch] =
      RunOutcome.fatal "Looks like rustfmt is emitting entire lines?" ∧
    process_mismatches (RopeOrSlice.Slice sample_slice) [sample_mismatch] =
      RunOutcome.ok [] ([sample_mismatch].map (localize (RopeOrSlice.Slice sample_slice))) :=
  ⟨(C8_line_invariant (RopeOrSlice.Slice sample_slice) [bad_mismatch]).1.mp
      ⟨bad_mismatch, by decide, by decide⟩,
   (C8_line_invariant (RopeOrSlice.Slice sample_slice) [sample_mismatch]).2 (by decide)⟩

/-- C9: `get_newline_offsets` yields exactly the indices holding byte
0x0A, in strictly increasing order; consequently the byte-buffer
localization's start byte never exceeds its end byte for a non-empty
`original` with `1 ≤ original_begin_line ≤ original_end_line`. -/
theorem C9_newline_index (slice : List Nat) :
    (∀ j : Nat, j ∈ get_newline_offsets slice ↔ slice[j]? = some 10) ∧
    List.Pairwise (· < ·) (get_newline_offsets slice) ∧
    (∀ m : Mismatch, m.original.isEmpty = false → 1 ≤ m.original_begin_line →
      m.original_begin_line ≤ m.original_end_line →
      (slice_range slice m).start_byte ≤ (slice_range slice m).end_byte) := by
  refine ⟨mem_get_newline_offsets slice, get_newline_offsets_sorted slice, ?_⟩
  intro m hne h1 h2
  rw [slice_range_start_eq, slice_range_end_eq slice m hne (by omega)]
  exact line_to_byte_mono slice (by omega)

/-- C9 witness: the newline-index facts at `sample_slice` and the
start/end ordering at `first_line_mismatch`. -/
theorem C9_witness :
    ((1 : Nat) ∈ get_newline_offsets sample_slice ↔ sample_slice[1]? = some 10) ∧
    List.Pairwise (· < ·) (get_newline_offsets sample_slice) ∧
    (slice_range sample_slice first_line_mismatch).start_byte ≤
      (slice_range sample_slice first_line_mismatch).end_byte :=
  ⟨(C9_newline_index sample_slice).1 1, (C9_newline_index sample_slice).2.1,
   (C9_newline_index sample_slice).2.2 first_line_mismatch (by decide) (by decide) (by decide)⟩

/-- C7: for a non-empty `original` spanning 1-based lines
`[original_begin_line, original_end_line]` of the document, the bytes
between the computed start and end offsets are exactly the concatenation
of those document lines, terminators included; moreover the rope path
computes the same range. -/
theorem C7_roundtrip (slice : List Nat) (m : Mismatch)
    (hne : m.original.isEmpty = false)
    (h1 : 1 ≤ m.original_begin_line)
    (h2 : m.original_begin_line ≤ m.original_end_line)
    (h3 : m.original_end_line ≤ (linesOf slice).length) :
    ((slice.drop (slice_range slice m).start_byte).take
        ((slice_range slice m).end_byte - (slice_range slice m).start_byte) =
      (((linesOf slice).drop (m.original_begin_line - 1)).take
        (m.original_end_line - (m.original_begin_line - 1))).flatten) ∧
    rope_range slice m = slice_range slice m := by
  have hb1 : 1 ≤ m.original_end_line := by omega
  refine ⟨?_, rope_range_eq_slice_range slice m hne hb1⟩
  rw [slice_range_start_eq, slice_range_end_eq slice m hne hb1]
  rw [← List.drop_take]
  rw [← flatten_take_linesOf slice m.original_end_line h3]
  have hsplit : (linesOf slice).take m.original_end_line =
      (linesOf slice).take (m.original_begin_line - 1) ++
        ((linesOf slice).drop (m.original_begin_line - 1)).take
          (m.original_end_line - (m.original_begin_line - 1)) := by
    rw [← List.take_add,
      show m.original_begin_line - 1 + (m.original_end_line - (m.original_begin_line - 1)) =
        m.original_end_line by omega]
  rw [hsplit, List.flatten_append]
  have hXlen : ((linesOf slice).take (m.original_begin_line - 1)).flatten.length =
      line_to_byte slice (m.original_begin_line - 1) := by
    rw [flatten_take_linesOf slice (m.original_begin_line - 1) (by omega), List.length_take]
    exact Nat.min_eq_left (line_to_byte_le_length slice (m.original_begin_line - 1))
  rw [← hXlen, List.drop_left]

/-- C7 witness: the round-trip at `sample_slice` and `sample_mismatch`
(line 2 of "a\nb\n"). -/
theorem C7_witness :
    ((sample_slice.drop (slice_range sample_slice sample_mismatch).start_byte).take
        ((slice_range sample_slice sample_mismatch).end_byte -
          (slice_range sample_slice sample_mismatch).start_byte) =
      (((linesOf sample_slice).drop (sample_mismatch.original_begin_line - 1)).take
        (sample_mismatch.original_end_line -
          (sample_mismatch.original_begin_line - 1))).flatten) ∧
    rope_range sample_slice sample_mismatch = slice_range sample_slice sample_mismatch :=
  C7_roundtrip sample_slice sample_mismatch (by decide) (by decide) (by decide) (by decide)

end RustfmtPlugin
